import Mathlib

/-!
Verification development for the parametric-EQ core of the DDPEC repository
(sources: src/fn.ts, src/importExport.ts, src/peq.ts).

Numbers held in the EQ state are modelled as rationals (every JavaScript
float value is a rational number); the transcendental quantities that the
filter math consumes (sin, cos, pow, sqrt, log10) are passed to the embedded
functions as explicit real-valued arguments, exactly at the places where the
source calls Math.sin / Math.cos / Math.pow / Math.sqrt / Math.log10.
A division whose divisor is zero produces a non-finite JavaScript value
(Infinity or NaN); such computations are embedded with Option, where none
marks that a non-finite value entered the result.
-/

set_option maxRecDepth 8192

/-- Band record, from the data model used throughout fn.ts / importExport.ts /
peq.ts (declared in main.ts, visible from every use site in the sources). -/
structure Band where
  index : Nat
  freq : ℚ
  gain : ℚ
  q : ℚ
  type : String
  enabled : Bool
deriving DecidableEq, Repr

/-- The module-level state of fn.ts: `eqState` and `globalGainState`. -/
structure EqState where
  eq : List Band
  globalGain : ℚ
deriving DecidableEq, Repr

/-- Modelled from the spec: `DEFAULT_FREQS` is imported by fn.ts from
constants.ts, a file that is not among the sources at hand.  Per the spec it
is a fixed frequency table of 10 entries (the spec repeatedly speaks of a
default 10-band state); representative octave-spaced values are used here.
Only its length and the positional indices derived from it matter to any
claim below. -/
def DEFAULT_FREQS : List ℚ := [31, 62, 125, 250, 500, 1000, 2000, 4000, 8000, 16000]

/-- Helper for `defaultEqState`: builds the band list, carrying the running
position, mirroring `DEFAULT_FREQS.map((freq, i) => ...)` in fn.ts.  The
default q written `0.75` in the source is the rational 3/4. -/
def mkDefaultBands : List ℚ → Nat → List Band
  | [], _ => []
  | f :: rest, i =>
    { index := i, freq := f, gain := 0, q := mkRat 3 4, type := "PK", enabled := true }
      :: mkDefaultBands rest (i + 1)

/-- fn.ts `defaultEqState`: one band per default frequency, gain 0, q 0.75,
type "PK", enabled. -/
def defaultEqState : List Band := mkDefaultBands DEFAULT_FREQS 0

/-- A dynamically-typed JavaScript value (`number | string | boolean`), as
passed to `updateState` / `setEQ`.  Finite numbers are rationals; NaN has no
constructor here, computations that would produce it return none instead. -/
inductive JSVal where
  | num (x : ℚ)
  | str (s : String)
  | bool (b : Bool)
deriving DecidableEq, Repr

/-- JavaScript whitespace as relevant to `trim`, `\s` and parseFloat
(ASCII subset; the claims touch no exotic whitespace). -/
def jsIsSpace (c : Char) : Bool :=
  c = ' ' || c = '\t' || c = '\n' || c = '\r' || c = '\x0b' || c = '\x0c'

/-- Digit run at the head of the character list: `\d+` (with its rest). -/
def takeDigits (cs : List Char) : List Char × List Char :=
  cs.span Char.isDigit

/-- Value of a digit string. -/
def digitsToNat (ds : List Char) : Nat :=
  ds.foldl (fun n c => 10 * n + (c.toNat - '0'.toNat)) 0

/-- Number grammar `\d+(\.\d+)?` at the head of the list, returning the parsed rational and
the rest.  If a dot is not followed by a digit the number ends before the
dot, matching the regex backtracking of the optional fraction group. -/
def matchUnsigned (cs : List Char) : Option (ℚ × List Char) :=
  let (ds, rest) := takeDigits cs
  if ds.isEmpty then none
  else
    match rest with
    | '.' :: rest2 =>
      let (fs, rest3) := takeDigits rest2
      if fs.isEmpty then some (mkRat (digitsToNat ds) 1, rest)
      else some (mkRat (digitsToNat (ds ++ fs)) (10 ^ fs.length), rest3)
    | _ => some (mkRat (digitsToNat ds) 1, rest)

/-- Signed number grammar `-?\d+(\.\d+)?` at the head of the list. -/
def matchSigned (cs : List Char) : Option (ℚ × List Char) :=
  match cs with
  | '-' :: rest => (matchUnsigned rest).map fun p => (-p.1, p.2)
  | _ => matchUnsigned cs

/-- JavaScript `parseFloat` on a dynamic value, as invoked by `updateState`:
numbers pass through, booleans stringify to non-numeric text (NaN, hence
none), and strings are prefix-parsed after leading whitespace.  The modelled
string grammar covers plain decimal literals, the only shape the program
feeds it. -/
def jsParseFloat : JSVal → Option ℚ
  | .num x => some x
  | .bool _ => none
  | .str s => (matchSigned (s.data.dropWhile jsIsSpace)).map (·.1)

/-- JavaScript truthiness of a dynamic value (`Boolean(value)`). -/
def JSVal.truthy : JSVal → Bool
  | .num x => decide (x ≠ 0)
  | .str s => decide (s ≠ "")
  | .bool b => b

/-- The per-key coercion performed by fn.ts `updateState` (lines 180-183)
before the write: freq/gain/q go through parseFloat, enabled through
Boolean, anything else is passed through unchanged.  none marks a NaN
result of parseFloat, which has no rational carrier here. -/
def coerceValue (key : String) (value : JSVal) : Option JSVal :=
  if key = "freq" || key = "gain" || key = "q" then (jsParseFloat value).map JSVal.num
  else if key = "enabled" then some (.bool value.truthy)
  else some value

/-- The dynamic keyed write `band[key] = value` restricted to the typed Band
record: a write of a value of the wrong dynamic type for the key (which the
coercion in `updateState` never produces for the coerced keys) falls outside
the typed model and yields none. -/
def assignBandField (b : Band) (key : String) (v : JSVal) : Option Band :=
  if key = "freq" then match v with | .num x => some { b with freq := x } | _ => none
  else if key = "gain" then match v with | .num x => some { b with gain := x } | _ => none
  else if key = "q" then match v with | .num x => some { b with q := x } | _ => none
  else if key = "type" then match v with | .str s => some { b with type := s } | _ => none
  else if key = "enabled" then match v with | .bool bb => some { b with enabled := bb } | _ => none
  else if key = "index" then
    match v with
    | .num x => if x.den = 1 ∧ 0 ≤ x.num then some { b with index := x.num.toNat } else none
    | _ => none
  else none

/-- fn.ts `setEQ` (lines 47-54): `eqState[index][key] = value`.  When `index`
is outside the bounds of the band array, `eqState[index]` is `undefined` and
the property write throws a TypeError; that abrupt termination is the none
result (the state is never touched in that case, the exception propagates to
the caller). -/
def setEQ (st : EqState) (index : ℤ) (key : String) (value : JSVal) : Option EqState :=
  if 0 ≤ index then
    match st.eq.get? index.toNat with
    | some b =>
      (assignBandField b key value).map fun b2 => { st with eq := st.eq.set index.toNat b2 }
    | none => none
  else none

/-- fn.ts `updateState` (lines 175-188): coerce the raw value per key, then
perform the keyed write via `setEQ`.  The UI refresh it triggers has no
effect on the state and is not modelled. -/
def updateState (st : EqState) (index : ℤ) (key : String) (value : JSVal) : Option EqState :=
  match coerceValue key value with
  | some v2 => setEQ st index key v2
  | none => none

/-- fn.ts `resetToDefaults` (lines 142-163), confirmed path: the state
effect is `eqState = defaultEqState(); setGlobalGain(0)` (the confirm
dialog, re-render and device sync are external I/O). -/
def resetToDefaults (_st : EqState) : EqState :=
  { eq := defaultEqState, globalGain := 0 }



/-- Case-insensitive literal prefix: consumes the pattern from the head of
the input (regexes in importExport.ts carry the `i` flag) and returns the
rest, or none when the pattern is not a prefix. -/
def ciStrip : List Char → List Char → Option (List Char)
  | [], cs => some cs
  | _ :: _, [] => none
  | p :: ps, c :: cs => if p.toLower = c.toLower then ciStrip ps cs else none

/-- Whitespace run `\s+`: at least one whitespace character, consumed maximally. -/
def skipSpaces1 (cs : List Char) : Option (List Char) :=
  match cs with
  | c :: rest => if jsIsSpace c then some (rest.dropWhile jsIsSpace) else none
  | [] => none

/-- The fragment `\s*(?:UNIT)?\s+KEYWORD` of the filter regex (UNIT is `Hz`
or `dB`, KEYWORD is `Gain` or `Q`).  Because whitespace is contiguous and
neither unit starts like a keyword, the backtracking regex is equivalent to:
skip all spaces; if the unit follows, consume it and then require at least
one more space before the keyword; otherwise require that at least one space
was skipped and match the keyword directly. -/
def unitThenKeyword (unit keyword : String) (cs : List Char) : Option (List Char) :=
  let cs1 := cs.dropWhile jsIsSpace
  let noUnit : Option (List Char) :=
    if cs1.length < cs.length then ciStrip keyword.data cs1 else none
  match ciStrip unit.data cs1 with
  | some cs2 =>
    match skipSpaces1 cs2 with
    | some cs3 =>
      match ciStrip keyword.data cs3 with
      | some cs4 => some cs4
      | none => noUnit
    | none => noUnit
  | none => noUnit

/-- The `(ON|OFF)` group (case-insensitive); returns the enabled flag
computed by the source as `match.toUpperCase() === "ON"`. -/
def matchOnOff (cs : List Char) : Option (Bool × List Char) :=
  match ciStrip ("ON".data) cs with
  | some r => some (true, r)
  | none =>
    match ciStrip ("OFF".data) cs with
    | some r => some (false, r)
    | none => none

/-- importExport.ts `preampRegex`
`/^Preamp:\s*(-?\d+(\.\d+)?)\s*(?:dB)?/i` applied to a trimmed line: the
trailing optional unit never affects acceptance or the captured number, so
the match yields exactly the parsed preamp value. -/
def matchPreamp (line : String) : Option ℚ :=
  (ciStrip ("Preamp:".data) line.data).bind fun rest =>
    (matchSigned (rest.dropWhile jsIsSpace)).map (·.1)

/-- Tail of the filter regex from `Fc` on:
`Fc\s+(\d+(?:\.\d+)?)\s*(?:Hz)?\s+Gain\s+(-?\d+(?:\.\d+)?)\s*(?:dB)?\s+Q\s+(\d+(?:\.\d+)?)`,
returning the three captured numbers (Fc, Gain, Q). -/
def matchFilterNums (r9 : List Char) : Option (ℚ × ℚ × ℚ) := do
  let r10 ← ciStrip ("Fc".data) r9
  let r11 ← skipSpaces1 r10
  let p12 ← matchUnsigned r11
  let r13 ← unitThenKeyword ("Hz") ("Gain") p12.2
  let r14 ← skipSpaces1 r13
  let p15 ← matchSigned r14
  let r16 ← unitThenKeyword ("dB") ("Q") p15.2
  let r17 ← skipSpaces1 r16
  let p18 ← matchUnsigned r17
  some (p12.1, p15.1, p18.1)

/-- importExport.ts `filterRegex`
`/^Filter\s+(\d+):\s+(ON|OFF)\s+([A-Z]+)\s+Fc\s+(\d+(?:\.\d+)?)\s*(?:Hz)?\s+Gain\s+(-?\d+(?:\.\d+)?)\s*(?:dB)?\s+Q\s+(\d+(?:\.\d+)?)/i`
applied to a trimmed line.  Captures: 1-based index, enabled flag, type tag
(verbatim, case preserved), Fc, Gain and Q values. -/
def matchFilter (line : String) : Option (Nat × Bool × String × ℚ × ℚ × ℚ) := do
  let r1 ← ciStrip ("Filter".data) line.data
  let r2 ← skipSpaces1 r1
  let (ds, r3) := takeDigits r2
  if ds.isEmpty then none
  else
    match r3 with
    | ':' :: r4 => do
      let r5 ← skipSpaces1 r4
      let p6 ← matchOnOff r5
      let r7 ← skipSpaces1 p6.2
      let (ty, r8) := r7.span Char.isAlpha
      if ty.isEmpty then none
      else do
        let r9 ← skipSpaces1 r8
        let nums ← matchFilterNums r9
        some (digitsToNat ds, p6.1, String.mk ty, nums.1, nums.2.1, nums.2.2)
    | _ => none

/-- Exact (case-sensitive) prefix test, JavaScript `String.startsWith`. -/
def isPrefixList : List Char → List Char → Bool
  | [], _ => true
  | _ :: _, [] => false
  | p :: ps, c :: cs => p = c && isPrefixList ps cs

/-- JavaScript `startsWith`. -/
def strStartsWith (s pre : String) : Bool := isPrefixList pre.data s.data

/-- Substring search over character lists, JavaScript `String.includes`. -/
def containsSubList : List Char → List Char → Bool
  | pat, [] => pat.isEmpty
  | pat, c :: rest => isPrefixList pat (c :: rest) || containsSubList pat rest

/-- JavaScript `includes` (case-sensitive). -/
def containsSubstr (s pat : String) : Bool := containsSubList pat.data s.data

/-- JavaScript `trim`: strip whitespace from both ends. -/
def jsTrim (s : String) : String :=
  String.mk ((s.data.dropWhile jsIsSpace).reverse.dropWhile jsIsSpace).reverse

/-- Split a character list at every newline (the pieces keep any carriage
return, removed afterwards). -/
def splitNL : List Char → List (List Char)
  | [] => [[]]
  | c :: rest =>
    if c = '\n' then [] :: splitNL rest
    else
      match splitNL rest with
      | [] => [[c]]
      | h :: t => (c :: h) :: t

/-- Line splitting `content.split(/\r?\n/)`: splitting at `\n` and then dropping one
trailing `\r` from each piece is equivalent to the regex split, since every
`\n` is a split point either way and the optional `\r` immediately before it
is consumed by the separator. -/
def splitLines (content : String) : List String :=
  (splitNL content.data).map fun l =>
    match l.getLast? with
    | some '\r' => String.mk l.dropLast
    | _ => String.mk l

/-- The pair built by importExport.ts `parseTextProfile`. -/
structure TProfile where
  globalGain : ℚ
  bands : List Band
deriving DecidableEq, Repr

/-- In-place update of one list entry (`bands[index] = {...bands[index], ...}`);
out-of-range positions are untouched (the source additionally guards the
bounds explicitly before writing). -/
def modifyAt : List Band → Nat → (Band → Band) → List Band
  | [], _, _ => []
  | b :: rest, 0, f => f b :: rest
  | b :: rest, n + 1, f => b :: modifyAt rest n f

/-- One iteration of the line loop of `parseTextProfile` (importExport.ts
lines 64-100): trim; skip blank lines; a preamp match sets the global gain
(so a later occurrence wins); otherwise a filter match writes the captured
fields over the band at the 1-based index when that position exists; any
other line is ignored. -/
def processLine (acc : TProfile) (line : String) : TProfile :=
  let trimmed := jsTrim line
  if trimmed.data.isEmpty then acc
  else
    match matchPreamp trimmed with
    | some g => { acc with globalGain := g }
    | none =>
      match matchFilter trimmed with
      | some (idx1, enabled, ty, fc, gv, qv) =>
        let index : ℤ := (idx1 : ℤ) - 1
        if 0 ≤ index ∧ index < (acc.bands.length : ℤ) then
          { acc with
            bands := modifyAt acc.bands index.toNat fun b =>
              { b with freq := fc, gain := gv, q := qv, type := ty, enabled := enabled } }
        else acc
      | none => acc

/-- importExport.ts `parseTextProfile` (lines 50-103): start from the
default band set and zero gain, then process the content line by line. -/
def parseTextProfile (content : String) : TProfile :=
  (splitLines content).foldl processLine { globalGain := 0, bands := defaultEqState }






/-- A parsed JSON value (the result of a successful `JSON.parse`).  The
string layer is not modelled: `JSON.stringify` of finite numbers followed by
`JSON.parse` reproduces the same values (shortest round-trip printing), so
the codec claims are settled at this tree level. -/
inductive JValue where
  | num (x : ℚ)
  | str (s : String)
  | bool (b : Bool)
  | null
  | arr (xs : List JValue)
  | obj (fs : List (String × JValue))

/-- Assoc-list lookup over the fields of a parsed JSON object. -/
def alookupJ : List (String × JValue) → String → Option JValue
  | [], _ => none
  | (k, v) :: rest, key => if k = key then some v else alookupJ rest key

/-- Property lookup `data.key` on a parsed JSON value: none is JavaScript
`undefined` (also for non-objects).  A parsed object has unique keys, so the
first match is the only one. -/
def jlookup (j : JValue) (key : String) : Option JValue :=
  match j with
  | .obj fs => alookupJ fs key
  | _ => none

/-- JavaScript truthiness of a parsed JSON value. -/
def JValue.truthy : JValue → Bool
  | .num x => decide (x ≠ 0)
  | .str s => decide (s ≠ "")
  | .bool b => b
  | .null => false
  | .arr _ => true
  | .obj _ => true

/-- JavaScript `a || b` on an optionally-present value (used by
`data.globalGain || 0`). -/
def jsOr (o : Option JValue) (d : JValue) : JValue :=
  match o with
  | some v => if v.truthy then v else d
  | none => d

/-- The record built by importExport.ts `parseJsonProfile`: the code stores
`data.bands` as the band array without validating its contents, so both
fields keep the dynamic (parsed JSON) type they have in JavaScript. -/
structure JProfile where
  globalGain : JValue
  bands : JValue

/-- importExport.ts `parseJsonProfile` (lines 36-45): requires a truthy
`bands` property (a missing `bands` is `undefined`, hence falsy, hence the
thrown FormatError); `globalGain` falls back to 0 when absent or falsy. -/
def parseJsonProfile (data : JValue) : Except String JProfile :=
  match jlookup data ("bands") with
  | some bv =>
    if bv.truthy then
      .ok { globalGain := jsOr (jlookup data ("globalGain")) (.num 0), bands := bv }
    else .error ("Invalid JSON profile: missing bands property")
  | none => .error ("Invalid JSON profile: missing bands property")

/-- JSON image of one band, with the field order produced by
`JSON.stringify` on the Band records of fn.ts. -/
def bandToJson (b : Band) : JValue :=
  .obj [("index", .num b.index), ("freq", .num b.freq), ("gain", .num b.gain),
        ("q", .num b.q), ("type", .str b.type), ("enabled", .bool b.enabled)]

/-- JSON image of the band array. -/
def bandsToJson (l : List Band) : JValue := .arr (l.map bandToJson)

/-- importExport.ts `exportProfile` (lines 13-31), data layer: the object
serialized to the downloaded file (`device` is the fixed tag "JM98MAX",
`timestamp` is the export-time clock value, passed in here). -/
def exportProfileData (globalGainState : ℚ) (eqState : List Band) (timestamp : String) : JValue :=
  .obj [("device", .str ("JM98MAX")), ("timestamp", .str timestamp),
        ("globalGain", .num globalGainState), ("bands", bandsToJson eqState)]

/-- Rational that is a JavaScript array index: a nonnegative integer. -/
def qToNat? (x : ℚ) : Option Nat :=
  if x.den = 1 ∧ 0 ≤ x.num then some x.num.toNat else none

/-- Meaning function for a JSON band object: the typed Band it denotes, if
its fields have the expected shapes.  The importer itself never runs such a
decoder (it trusts the parsed objects); this function only expresses what
band list a JSON value denotes, for the round-trip statement. -/
def bandFromJson (j : JValue) : Option Band :=
  match jlookup j ("index"), jlookup j ("freq"), jlookup j ("gain"),
        jlookup j ("q"), jlookup j ("type"), jlookup j ("enabled") with
  | some (.num ix), some (.num f), some (.num g), some (.num qv),
      some (.str t), some (.bool e) =>
    (qToNat? ix).map fun i =>
      { index := i, freq := f, gain := g, q := qv, type := t, enabled := e }
  | _, _, _, _, _, _ => none

/-- Meaning function for a list of JSON band objects. -/
def bandsFromJsonList : List JValue → Option (List Band)
  | [] => some []
  | j :: rest =>
    match bandFromJson j, bandsFromJsonList rest with
    | some b, some bs => some (b :: bs)
    | _, _ => none

/-- Meaning function for a JSON band array. -/
def bandsFromJson (j : JValue) : Option (List Band) :=
  match j with
  | .arr xs => bandsFromJsonList xs
  | _ => none

/-- The dynamic state as the import path sees it: after a JSON import the
band array IS the parsed JSON array (stored by `setEqState(profile.bands)`
without conversion), and the global gain is whatever `data.globalGain || 0`
produced. -/
structure JsState where
  bands : JValue
  globalGain : JValue

/-- Embedding of the typed state into the dynamic view. -/
def EqState.toJs (st : EqState) : JsState :=
  { bands := bandsToJson st.eq, globalGain := .num st.globalGain }

/-- The JSON branch of importExport.ts `importProfile` (lines 122-138): a
parse failure is caught, logged, and leaves the state untouched; a success
stores the profile fields.  The second component is the caught error
message, none on success. -/
def importJsonOutcome (st : JsState) (data : JValue) : JsState × Option String :=
  match parseJsonProfile data with
  | .error msg => (st, some msg)
  | .ok p => ({ bands := p.bands, globalGain := p.globalGain }, none)

/-- importExport.ts `importProfile` (lines 109-151), content dispatch and
state effect.  `JSON.parse` of the raw text is not modelled; its outcome is
the `jsonParse` argument (none when it would throw a SyntaxError), consulted
only when the trimmed content starts with a brace.  All caught errors leave
the state untouched. -/
def importProfile (st : JsState) (content : String) (jsonParse : Option JValue) :
    JsState × Option String :=
  if strStartsWith (jsTrim content) "\x7b" then
    match jsonParse with
    | none => (st, some ("SyntaxError"))
    | some data => importJsonOutcome st data
  else if strStartsWith (jsTrim content) "Preamp:" || containsSubstr content ("Filter 1:") then
    let p := parseTextProfile content
    ({ bands := bandsToJson p.bands, globalGain := .num p.globalGain }, none)
  else (st, some ("Unknown file format"))



/-- Normalized biquad coefficients (a0 divided out), over a field `K`
(instantiated at ℝ for the claims tied to real trigonometry and at ℚ for
concrete evaluations). -/
structure Coeffs (K : Type) where
  b0 : K
  b1 : K
  b2 : K
  a1 : K
  a2 : K
deriving DecidableEq

/-- JavaScript floating division as used in peq.ts: a zero divisor yields a
non-finite value (Infinity or NaN), marked none; any other division is exact
here. -/
def divJs {K : Type} [Field K] [DecidableEq K] (x y : K) : Option K :=
  if y = 0 then none else some (x / y)

/-- The `switch (band.type)` of peq.ts `calculateBiquad` (lines 81-111),
producing the unnormalized six coefficients `(b0, b1, b2, a0, a1, a2)`.
`alpha` (`sin(w0)/(2q)`) is computed before the switch in the source but
only consumed by the three recognized branches, so a non-finite `alpha`
(none) is discarded by the default branch exactly as in JavaScript.  `A` is
the value `Math.pow(10, gain/40)` and `sqrtA` the value `Math.sqrt(A)`,
passed in as the real numbers the source computes at those call sites. -/
def rawBiquad {K : Type} [Field K] [DecidableEq K] (type : String) (alpha? : Option K)
    (A sqrtA cosw : K) : Option (K × K × K × K × K × K) :=
  if type = "PK" then
    alpha?.bind fun alpha =>
      (divJs alpha A).map fun adA =>
        (1 + alpha * A, -2 * cosw, 1 - alpha * A, 1 + adA, -2 * cosw, 1 - adA)
  else if type = "LSQ" then
    alpha?.map fun alpha =>
      let sa := 2 * sqrtA * alpha
      (A * ((A + 1) - (A - 1) * cosw + sa), 2 * A * ((A - 1) - (A + 1) * cosw),
       A * ((A + 1) - (A - 1) * cosw - sa), (A + 1) + (A - 1) * cosw + sa,
       -2 * ((A - 1) + (A + 1) * cosw), (A + 1) + (A - 1) * cosw - sa)
  else if type = "HSQ" then
    alpha?.map fun alpha =>
      let sb := 2 * sqrtA * alpha
      (A * ((A + 1) + (A - 1) * cosw + sb), -2 * A * ((A - 1) + (A + 1) * cosw),
       A * ((A + 1) + (A - 1) * cosw - sb), (A + 1) - (A - 1) * cosw + sb,
       2 * ((A - 1) - (A + 1) * cosw), (A + 1) - (A - 1) * cosw - sb)
  else some (1, 0, 0, 1, 0, 0)

/-- peq.ts `calculateBiquad` (lines 69-120).  A disabled band returns the
identity coefficients before any math runs.  Otherwise the raw coefficients
from the switch are normalized by `a0`; none records that a non-finite value
(division by zero somewhere along the way) entered the returned record.
`sinw0`/`cosw0` stand for `Math.sin(w0)`/`Math.cos(w0)` with
`w0 = 2*pi*band.freq/sampleRate`, and `A`/`sqrtA` for the `Math.pow(10,
band.gain/40)` and `Math.sqrt(A)` values. -/
def calculateBiquad {K : Type} [Field K] [DecidableEq K] (band : Band)
    (A sqrtA sinw0 cosw0 : K) : Option (Coeffs K) :=
  if band.enabled = false then some { b0 := 1, b1 := 0, b2 := 0, a1 := 0, a2 := 0 }
  else
    (rawBiquad band.type (divJs sinw0 (2 * (band.q : K))) A sqrtA cosw0).bind fun raw =>
      match raw with
      | (b0, b1, b2, a0, a1, a2) =>
        (divJs b0 a0).bind fun nb0 =>
        (divJs b1 a0).bind fun nb1 =>
        (divJs b2 a0).bind fun nb2 =>
        (divJs a1 a0).bind fun na1 =>
        (divJs a2 a0).map fun na2 =>
          { b0 := nb0, b1 := nb1, b2 := nb2, a1 := na1, a2 := na2 }

/-- The identity filter `{b0:1, b1:0, b2:0, a1:0, a2:0}`. -/
def identityCoeffs {K : Type} [Field K] : Coeffs K :=
  { b0 := 1, b1 := 0, b2 := 0, a1 := 0, a2 := 0 }

/-- The body of the `forEach` in peq.ts `getMagnitude` (lines 131-139): the
decibel contribution `10*log10(|H|^2)` of one filter section at the
evaluation angle whose cosine/sine values (of `w` and `2w`) are given.
`log10` abstracts `Math.log10`. -/
def dbTerm {K : Type} [Field K] [DecidableEq K] (log10 : K → K) (c : Coeffs K)
    (cos1 cos2 sin1 sin2 : K) : Option K :=
  let numRe := c.b0 + c.b1 * cos1 + c.b2 * cos2
  let numIm := -(c.b1 * sin1 + c.b2 * sin2)
  let denRe := 1 + c.a1 * cos1 + c.a2 * cos2
  let denIm := -(c.a1 * sin1 + c.a2 * sin2)
  (divJs (numRe * numRe + numIm * numIm) (denRe * denRe + denIm * denIm)).map
    fun magSq => 10 * log10 magSq

/-- peq.ts `getMagnitude` (lines 122-142): the summed decibel contributions
of a coefficient list at one evaluation angle; `cos1`/`cos2`/`sin1`/`sin2`
stand for `Math.cos(w)`, `Math.cos(2w)`, `Math.sin(w)`, `Math.sin(2w)` with
`w = 2*pi*freq/sampleRate`. -/
def getMagnitude {K : Type} [Field K] [DecidableEq K] (log10 : K → K)
    (coeffsList : List (Coeffs K)) (cos1 cos2 sin1 sin2 : K) : Option K :=
  coeffsList.foldl
    (fun acc c => acc.bind fun t => (dbTerm log10 c cos1 cos2 sin1 sin2).map fun d => t + d)
    (some 0)




/-- Round trip of the per-band JSON encoding against its meaning function. -/
lemma bandFromJson_bandToJson (b : Band) : bandFromJson (bandToJson b) = some b := by
  have h1 : ((b.index : ℚ)).den = 1 := rfl
  have h2 : (0 : ℤ) ≤ ((b.index : ℚ)).num := Int.ofNat_nonneg b.index
  simp [bandFromJson, bandToJson, jlookup, alookupJ, qToNat?, h1, h2]

/-- Round trip of the band-array JSON encoding. -/
lemma bandsFromJsonList_map (l : List Band) :
    bandsFromJsonList (l.map bandToJson) = some l := by
  induction l with
  | nil => rfl
  | cons b t ih => simp [bandsFromJsonList, bandFromJson_bandToJson, ih]

/-- C1: the spec says a band-field update (`updateState`/`setEQ`) at an
out-of-bounds index is a silent no-op that raises no error.  The code has no
bounds check: `eqState[index][key] = value` reads `undefined` at an
out-of-bounds index and the property write throws a TypeError (`none` here),
for every state, field and raw value at the just-past-the-end index, and for
indices past the end and negative indices of the default state alike; the
state itself is never modified because the throw precedes any write.
In-bounds updates succeed, showing the error is specific to the
out-of-range case. -/
theorem setEQ_out_of_range_throws :
    (∀ (st : EqState) (key : String) (v : JSVal),
      updateState st (st.eq.length : ℤ) key v = none)
    ∧ updateState { eq := defaultEqState, globalGain := 0 } 10 ("gain") (.num 1) = none
    ∧ setEQ { eq := defaultEqState, globalGain := 0 } 10 ("gain") (.num 1) = none
    ∧ updateState { eq := defaultEqState, globalGain := 0 } (-1) ("gain") (.num 1) = none
    ∧ (updateState { eq := defaultEqState, globalGain := 0 } 0 ("gain") (.num 1)).isSome
        = true := by
  refine ⟨?_, by decide, by decide, by decide, by decide⟩
  intro st key v
  unfold updateState
  cases h : coerceValue key v with
  | none => rfl
  | some v2 =>
    unfold setEQ
    have hget : st.eq.get? ((st.eq.length : ℤ)).toNat = none := by
      simp [List.get?_eq_none]
    simp [hget, Int.natCast_nonneg]

/-- C9: `resetToDefaults` replaces any prior state with the canonical
default band set (default frequency table, gain 0, q 0.75, type "PK",
enabled) and global gain 0, and is an idempotent fixed point. -/
theorem resetToDefaults_canonical (st : EqState) :
    resetToDefaults st = { eq := defaultEqState, globalGain := 0 }
    ∧ resetToDefaults (resetToDefaults st) = resetToDefaults st
    ∧ (∀ b ∈ (resetToDefaults st).eq,
        b.gain = 0 ∧ b.q = mkRat 3 4 ∧ b.type = "PK" ∧ b.enabled = true)
    ∧ (mkRat 3 4 : ℚ) = 0.75 := by
  have h3 : ∀ b ∈ defaultEqState,
      b.gain = 0 ∧ b.q = mkRat 3 4 ∧ b.type = "PK" ∧ b.enabled = true := by decide
  exact ⟨rfl, rfl, h3, by norm_num [Rat.mkRat_eq_div]⟩

/-- C9 witness: the canonical reset applied to one concrete prior state. -/
theorem resetToDefaults_canonical_witness :
    resetToDefaults { eq := [], globalGain := 5 } = { eq := defaultEqState, globalGain := 0 } :=
  (resetToDefaults_canonical { eq := [], globalGain := 5 }).1

/-- C5: importing the two-line text profile of the spec into the default
10-band state yields global gain -8.0 and writes
freq 34, gain -2.6, q 0.8, type "PK", enabled into band 0, while bands 1-9
keep their default values (`mkRat 26 10` is 2.6, `mkRat 800 1000` is 0.800,
as the trailing conjuncts state). -/
theorem textImport_example_profile :
    parseTextProfile ("Preamp: -8.0 dB\nFilter 1: ON PK Fc 34 Hz Gain -2.6 dB Q 0.800")
      = { globalGain := -8,
          bands := Band.mk 0 34 (-(mkRat 26 10)) (mkRat 800 1000) "PK" true
            :: defaultEqState.drop 1 }
    ∧ (-(mkRat 26 10) : ℚ) = -2.6 ∧ (mkRat 800 1000 : ℚ) = 0.8 ∧ ((-8 : ℚ)) = -8.0
    ∧ defaultEqState.length = 10 := by
  refine ⟨by decide, by norm_num [Rat.mkRat_eq_div], by norm_num [Rat.mkRat_eq_div],
    by norm_num, by decide⟩

/-- C3: importing the JSON produced by the JSON export of any state yields
the same band sequence (via the band-array meaning function, the encoding
being injective) and the same global gain, for every export timestamp. -/
theorem json_round_trip (gg : ℚ) (l : List Band) (ts : String) :
    ∃ p : JProfile,
      parseJsonProfile (exportProfileData gg l ts) = .ok p
      ∧ p.globalGain = .num gg
      ∧ bandsFromJson p.bands = some l := by
  refine ⟨{ globalGain := jsOr (some (.num gg)) (.num 0), bands := bandsToJson l },
    ?_, ?_, ?_⟩
  · simp [parseJsonProfile, exportProfileData, jlookup, alookupJ, bandsToJson,
      JValue.truthy, jsOr]
  · by_cases h : gg = 0 <;> simp [jsOr, JValue.truthy, h]
  · simp [bandsToJson, bandsFromJson, bandsFromJsonList_map]

/-- C4: a JSON profile import whose parsed object has no `bands` property
fails with the FormatError message and leaves the state untouched. -/
theorem jsonImport_missing_bands (st : JsState) (content : String) (data : JValue)
    (hjson : strStartsWith (jsTrim content) "\x7b" = true)
    (hbands : jlookup data ("bands") = none) :
    importProfile st content (some data)
      = (st, some ("Invalid JSON profile: missing bands property")) := by
  simp [importProfile, hjson, importJsonOutcome, parseJsonProfile, hbands]

/-- C4 witness: a concrete braced JSON object carrying only `globalGain`. -/
theorem jsonImport_missing_bands_witness :
    importProfile { bands := .arr [], globalGain := .num 0 }
        ("\x7b\"globalGain\": 5\x7d") (some (.obj [("globalGain", .num 5)]))
      = ({ bands := .arr [], globalGain := .num 0 },
          some ("Invalid JSON profile: missing bands property")) :=
  jsonImport_missing_bands _ _ _ (by decide) rfl

lemma modifyAt_length (l : List Band) (n : ℕ) (f : Band → Band) :
    (modifyAt l n f).length = l.length := by
  induction l generalizing n with
  | nil => rfl
  | cons b t ih =>
    cases n with
    | zero => rfl
    | succ m => simpa [modifyAt] using ih m

lemma modifyAt_get? (l : List Band) (f : Band → Band) (n i : ℕ) :
    (modifyAt l n f).get? i = (l.get? i).map fun b => if i = n then f b else b := by
  induction l generalizing n i with
  | nil => simp [modifyAt]
  | cons b t ih =>
    cases n with
    | zero =>
      cases i with
      | zero => simp [modifyAt]
      | succ j => simp only [modifyAt, List.get?_cons_succ]
                  cases t.get? j <;> simp
    | succ m =>
      cases i with
      | zero => simp [modifyAt]
      | succ j => simp only [modifyAt, List.get?_cons_succ, ih]
                  cases t.get? j <;> simp

/-- The length and positional-index invariant of a band list. -/
def BandsInv (l : List Band) : Prop :=
  l.length = DEFAULT_FREQS.length ∧ ∀ i b, l.get? i = some b → b.index = i

lemma mkDefaultBands_length (fs : List ℚ) (k : ℕ) :
    (mkDefaultBands fs k).length = fs.length := by
  induction fs generalizing k with
  | nil => rfl
  | cons f t ih => simpa [mkDefaultBands] using ih (k + 1)

lemma mkDefaultBands_index (fs : List ℚ) (k i : ℕ) (b : Band) :
    (mkDefaultBands fs k).get? i = some b → b.index = k + i := by
  induction fs generalizing k i with
  | nil => simp [mkDefaultBands]
  | cons f t ih =>
    cases i with
    | zero =>
      intro h
      simp [mkDefaultBands] at h
      subst h
      simp
    | succ j =>
      intro h
      simp only [mkDefaultBands, List.get?_cons_succ] at h
      have := ih (k + 1) j h
      omega

lemma defaultEqState_inv : BandsInv defaultEqState := by
  constructor
  · simpa [defaultEqState] using mkDefaultBands_length DEFAULT_FREQS 0
  · intro i b h
    have := mkDefaultBands_index DEFAULT_FREQS 0 i b h
    omega

lemma modifyAt_inv (l : List Band) (n : ℕ) (f : Band → Band)
    (hf : ∀ b, (f b).index = b.index) (hinv : BandsInv l) :
    BandsInv (modifyAt l n f) := by
  constructor
  · rw [modifyAt_length]; exact hinv.1
  · intro i b hb
    rw [modifyAt_get?] at hb
    cases hx : l.get? i with
    | none => rw [hx] at hb; simp at hb
    | some b0 =>
      rw [hx] at hb
      simp only [Option.map_some', Option.some.injEq] at hb
      by_cases hi : i = n
      · rw [if_pos hi] at hb
        rw [← hb, hf]
        exact hinv.2 i b0 hx
      · rw [if_neg hi] at hb
        rw [← hb]
        exact hinv.2 i b0 hx

lemma processLine_inv (acc : TProfile) (line : String) (h : BandsInv acc.bands) :
    BandsInv (processLine acc line).bands := by
  simp only [processLine]
  split
  · exact h
  split
  · exact h
  split
  · split
    · exact modifyAt_inv _ _ _ (fun b => rfl) h
    · exact h
  · exact h

lemma foldl_processLine_inv (lines : List String) (acc : TProfile) (h : BandsInv acc.bands) :
    BandsInv (lines.foldl processLine acc).bands := by
  induction lines generalizing acc with
  | nil => exact h
  | cons l t ih => exact ih _ (processLine_inv _ _ h)

/-- C10 (amended): a text import always yields a band sequence of exactly
the default-table length whose bands satisfy `band[i].index == i`; a JSON
import, by contrast, stores the parsed `bands` value verbatim, so its shape
follows the JSON content rather than the default table. -/
theorem import_shape_invariants (content : String) :
    (parseTextProfile content).bands.length = DEFAULT_FREQS.length
    ∧ (∀ i b, (parseTextProfile content).bands.get? i = some b → b.index = i)
    ∧ (∀ st data p, parseJsonProfile data = .ok p →
        (importJsonOutcome st data).1.bands = p.bands) := by
  have h := foldl_processLine_inv (splitLines content)
    { globalGain := 0, bands := defaultEqState } defaultEqState_inv
  refine ⟨h.1, h.2, ?_⟩
  intro st data p hp
  simp [importJsonOutcome, hp]

/-- C10 witness: the text part at one concrete input, and the JSON part at a
concrete profile whose `bands` value is not even an array. -/
theorem import_shape_invariants_witness :
    (parseTextProfile ("x")).bands.length = DEFAULT_FREQS.length
    ∧ (importJsonOutcome { bands := .null, globalGain := .null }
        (.obj [("bands", .bool true)])).1.bands = .bool true := by
  refine ⟨(import_shape_invariants ("x")).1, ?_⟩
  exact (import_shape_invariants ("x")).2.2 { bands := .null, globalGain := .null } _
    { globalGain := .num 0, bands := .bool true } (by rfl)

/-- C10 counterexample: importing the JSON object with an empty `bands`
array succeeds and replaces the band sequence with an empty one, so the
resulting sequence does not keep the default-table length (the claim fails
for JSON import). -/
theorem import_resizes_counterexample :
    (importJsonOutcome { bands := bandsToJson defaultEqState, globalGain := .num 0 }
        (.obj [("bands", .arr [])])).1.bands = .arr []
    ∧ bandsFromJson (JValue.arr []) = some []
    ∧ ([] : List Band).length ≠ DEFAULT_FREQS.length := by
  refine ⟨rfl, rfl, by decide⟩

/-- C6 (amended): an individual line can never fail the text parser — a line
matching neither the preamp nor the filter regex leaves the parse state
unchanged — and for content that does not enter the JSON branch (no leading
brace) the import errors exactly when the trimmed content does not start
with `Preamp:` and the content does not contain the literal `Filter 1:`.
In particular a line matching the filter grammar with an index other than 1
does not by itself make the content accepted. -/
theorem textImport_line_tolerance :
    (∀ acc line, matchPreamp (jsTrim line) = none → matchFilter (jsTrim line) = none →
        processLine acc line = acc)
    ∧ (∀ st content jsonParse, strStartsWith (jsTrim content) "\x7b" = false →
        ((importProfile st content jsonParse).2 = none
          ↔ (strStartsWith (jsTrim content) "Preamp:" = true
              ∨ containsSubstr content ("Filter 1:") = true))) := by
  constructor
  · intro acc line h1 h2
    simp [processLine, h1, h2]
  · intro st content jp h
    simp only [importProfile, h]
    by_cases h2 : strStartsWith (jsTrim content) "Preamp:" = true
    · simp [h2]
    · by_cases h3 : containsSubstr content ("Filter 1:") = true
      · simp [h2, h3]
      · simp [h2, h3]

/-- C6 witness: a comment-like line is ignored, and a content without brace,
preamp prefix or `Filter 1:` substring errors. -/
theorem textImport_line_tolerance_witness :
    processLine { globalGain := 0, bands := [] } ("# note") = { globalGain := 0, bands := [] }
    ∧ ((importProfile { bands := .null, globalGain := .null } ("hello") none).2 = none
        ↔ (strStartsWith (jsTrim ("hello")) "Preamp:" = true
            ∨ containsSubstr ("hello") "Filter 1:" = true)) :=
  ⟨textImport_line_tolerance.1 _ _ (by decide) (by decide),
   textImport_line_tolerance.2 { bands := .null, globalGain := .null } ("hello") none
     (by decide)⟩

/-- C6 counterexample: the single line `Filter 2: ...` matches the filter
grammar (the text parser would apply it to band 2), yet the import heuristic
rejects the content with the ParseError, because the content neither starts
with `Preamp:` nor contains the literal `Filter 1:`. -/
theorem textImport_rejects_grammar_line :
    (matchFilter ("Filter 2: ON PK Fc 100 Hz Gain 1 dB Q 1")).isSome = true
    ∧ (parseTextProfile ("Filter 2: ON PK Fc 100 Hz Gain 1 dB Q 1")).bands.get? 1
        = some (Band.mk 1 100 1 1 ("PK") true)
    ∧ (importProfile { bands := bandsToJson defaultEqState, globalGain := .num 0 }
        ("Filter 2: ON PK Fc 100 Hz Gain 1 dB Q 1") none).2
        = some ("Unknown file format") := by
  refine ⟨by decide, by decide, by decide⟩

/-- Inserting the identity filter anywhere in a cascade leaves the summed
magnitude unchanged (its term is `10*log10(1) = 0`). -/
lemma getMagnitude_insert_identity {K : Type} [Field K] [DecidableEq K] (log10 : K → K)
    (hlog : log10 1 = 0) (pre post : List (Coeffs K)) (cos1 cos2 sin1 sin2 : K) :
    getMagnitude log10 (pre ++ identityCoeffs :: post) cos1 cos2 sin1 sin2
      = getMagnitude log10 (pre ++ post) cos1 cos2 sin1 sin2 := by
  have hterm : dbTerm log10 identityCoeffs cos1 cos2 sin1 sin2 = some 0 := by
    simp [dbTerm, identityCoeffs, divJs, hlog]
  have hid : ∀ X : Option K,
      (X.bind fun t =>
          (dbTerm log10 identityCoeffs cos1 cos2 sin1 sin2).map fun d => t + d) = X := by
    intro X
    cases X with
    | none => rfl
    | some t => simp [hterm]
  unfold getMagnitude
  rw [List.foldl_append, List.foldl_append, List.foldl_cons, hid]

/-- C7: a disabled band, or a band whose filterType is none of the
recognized tags "PK"/"LSQ"/"HSQ", gets the identity coefficients
`{b0:1, b1:0, b2:0, a1:0, a2:0}` from the coefficient derivation, whatever
its other fields and whatever the trig/pow inputs; the decibel term of those
coefficients is exactly 0 at every evaluation angle, so inserting the band
anywhere in a cascade leaves the total magnitude unchanged. -/
theorem disabled_or_unknown_identity {K : Type} [Field K] [DecidableEq K] (band : Band)
    (A sqrtA sinw0 cosw0 : K) (log10 : K → K) (cos1 cos2 sin1 sin2 : K)
    (pre post : List (Coeffs K))
    (hband : band.enabled = false
      ∨ (band.type ≠ "PK" ∧ band.type ≠ "LSQ" ∧ band.type ≠ "HSQ"))
    (hlog : log10 1 = 0) :
    calculateBiquad band A sqrtA sinw0 cosw0 = some identityCoeffs
    ∧ dbTerm log10 identityCoeffs cos1 cos2 sin1 sin2 = some 0
    ∧ getMagnitude log10 (pre ++ identityCoeffs :: post) cos1 cos2 sin1 sin2
        = getMagnitude log10 (pre ++ post) cos1 cos2 sin1 sin2 := by
  refine ⟨?_, by simp [dbTerm, identityCoeffs, divJs, hlog],
    getMagnitude_insert_identity log10 hlog pre post cos1 cos2 sin1 sin2⟩
  rcases hband with he | ⟨h1, h2, h3⟩
  · simp [calculateBiquad, he, identityCoeffs]
  · by_cases he : band.enabled = false
    · simp [calculateBiquad, he, identityCoeffs]
    · simp [calculateBiquad, he, rawBiquad, h1, h2, h3, divJs, one_ne_zero, identityCoeffs]

/-- C7 witness: a band that is both unrecognized ("XX") and has q = 0 — the
discarded alpha does not matter — at concrete rational trig stand-ins. -/
theorem disabled_or_unknown_identity_witness :
    calculateBiquad (K := ℚ) ⟨3, 500, 6, 0, "XX", true⟩ 2 3 (mkRat 1 2) (mkRat 1 3)
        = some identityCoeffs
    ∧ dbTerm (fun _ => (0 : ℚ)) identityCoeffs 1 0 0 1 = some 0
    ∧ getMagnitude (fun _ => (0 : ℚ)) ([] ++ identityCoeffs :: []) 1 0 0 1
        = getMagnitude (fun _ => (0 : ℚ)) ([] ++ []) 1 0 0 1 :=
  disabled_or_unknown_identity ⟨3, 500, 6, 0, "XX", true⟩ 2 3 (mkRat 1 2) (mkRat 1 3)
    (fun _ => 0) 1 0 0 1 [] []
    (Or.inr ⟨by decide, by decide, by decide⟩) rfl

/-- C2 (the guard the spec requires is absent): a band with q = 0 reaches
the coefficient formulas unchanged — the text importer accepts `Q 0`, as the
second conjunct shows — and the derivation divides by `2*q = 0`
(`alpha = sin(w0)/0`), propagating a non-finite value into every returned
coefficient (the none result), for every value of the trig and pow inputs.
No rejection or clamping of `q <= 0` / `freq <= 0` exists anywhere on the
path. -/
theorem biquad_no_guard_div_zero (sinw0 cosw0 A sqrtA : ℝ) :
    calculateBiquad (K := ℝ) ⟨0, 1000, 0, 0, "PK", true⟩ A sqrtA sinw0 cosw0 = none
    ∧ (parseTextProfile ("Filter 1: ON PK Fc 100 Hz Gain 0 dB Q 0")).bands.get? 0
        = some (Band.mk 0 100 0 0 ("PK") true) := by
  constructor
  · simp [calculateBiquad, rawBiquad, divJs, Rat.cast_zero]
  · decide

/-- A Peak band at unity gain factor (A = 1, the exact value of
`Math.pow(10, 0/40)` for gain 0) with q > 0 and positive `sin(w0)` is
derived without any zero divisor, and its normalized coefficients satisfy
`b0 = 1`, `b1 = a1`, `b2 = a2` — the numerator polynomial equals the
denominator polynomial. -/
lemma peak_unity_gain_coeffs (band : Band) (s0 c0 : ℝ)
    (htype : band.type = "PK") (hen : band.enabled = true) (hq : 0 < band.q)
    (hs0 : 0 < s0) :
    calculateBiquad band 1 1 s0 c0 = some
      { b0 := 1,
        b1 := -2 * c0 / (1 + s0 / (2 * (band.q : ℝ))),
        b2 := (1 - s0 / (2 * (band.q : ℝ))) / (1 + s0 / (2 * (band.q : ℝ))),
        a1 := -2 * c0 / (1 + s0 / (2 * (band.q : ℝ))),
        a2 := (1 - s0 / (2 * (band.q : ℝ))) / (1 + s0 / (2 * (band.q : ℝ))) } := by
  have hqR : (0 : ℝ) < (band.q : ℝ) := by exact_mod_cast hq
  have h2q : (2 * (band.q : ℝ)) ≠ 0 := by positivity
  have hα : 0 < s0 / (2 * (band.q : ℝ)) := div_pos hs0 (by positivity)
  have ha0 : (1 : ℝ) + s0 / (2 * (band.q : ℝ)) ≠ 0 := by positivity
  simp [calculateBiquad, rawBiquad, divJs, hen, htype, h2q, ha0, div_self ha0]

/-- The decibel term of the unity-gain Peak coefficients is exactly 0 at
every evaluation angle: the magnitude ratio is S/S with S nonzero, because
a pole of the section cannot sit on the unit circle (the case analysis on
the factored imaginary part). -/
lemma peak_unity_dbTerm (α c0 c1 s1 : ℝ) (log10 : ℝ → ℝ)
    (hα : 0 < α) (hc0 : c0 ^ 2 < 1) (hpy : s1 ^ 2 + c1 ^ 2 = 1) (hlog : log10 1 = 0) :
    dbTerm log10
      { b0 := 1, b1 := -2 * c0 / (1 + α), b2 := (1 - α) / (1 + α),
        a1 := -2 * c0 / (1 + α), a2 := (1 - α) / (1 + α) }
      c1 (2 * c1 ^ 2 - 1) s1 (2 * s1 * c1) = some 0 := by
  have h1α : (0 : ℝ) < 1 + α := by linarith
  have hform : ∀ S : ℝ, S ≠ 0 →
      ((divJs S S).map fun m => (10 : ℝ) * log10 m) = some 0 := by
    intro S hS
    simp [divJs, hS, div_self hS, hlog]
  have hNM : (0 : ℝ) <
      ((1 + α) - 2 * c0 * c1 + (1 - α) * (2 * c1 ^ 2 - 1)) ^ 2
        + (2 * s1 * (c0 - (1 - α) * c1)) ^ 2 := by
    by_contra hle
    push_neg at hle
    have h0 : ((1 + α) - 2 * c0 * c1 + (1 - α) * (2 * c1 ^ 2 - 1)) ^ 2
        + (2 * s1 * (c0 - (1 - α) * c1)) ^ 2 = 0 := le_antisymm hle (by positivity)
    have hN2 : ((1 + α) - 2 * c0 * c1 + (1 - α) * (2 * c1 ^ 2 - 1)) ^ 2 = 0 := by
      nlinarith [sq_nonneg ((1 + α) - 2 * c0 * c1 + (1 - α) * (2 * c1 ^ 2 - 1)),
        sq_nonneg (2 * s1 * (c0 - (1 - α) * c1))]
    have hM2 : (2 * s1 * (c0 - (1 - α) * c1)) ^ 2 = 0 := by
      nlinarith [sq_nonneg ((1 + α) - 2 * c0 * c1 + (1 - α) * (2 * c1 ^ 2 - 1)),
        sq_nonneg (2 * s1 * (c0 - (1 - α) * c1))]
    have hNz : (1 + α) - 2 * c0 * c1 + (1 - α) * (2 * c1 ^ 2 - 1) = 0 :=
      sq_eq_zero_iff.mp hN2
    have hMz : 2 * s1 * (c0 - (1 - α) * c1) = 0 := sq_eq_zero_iff.mp hM2
    rcases mul_eq_zero.mp hMz with hs | hc
    · have hs1 : s1 = 0 := by linarith
      have hc1 : c1 ^ 2 = 1 := by nlinarith [hpy]
      have hc0c1 : c0 * c1 = 1 := by rw [hc1] at hNz; linarith
      have h2 : (c0 * c1) ^ 2 = 1 := by rw [hc0c1]; norm_num
      have h3 : c0 ^ 2 * c1 ^ 2 = 1 := by rw [mul_pow] at h2; exact h2
      have h4 : c0 ^ 2 = 1 := by rw [hc1] at h3; simpa using h3
      linarith
    · have hcc : c0 = (1 - α) * c1 := by linarith
      rw [hcc] at hNz
      nlinarith [hNz, hα]
  apply hform
  refine ne_of_gt ?_
  have hdiv : (0 : ℝ) <
      (((1 + α) - 2 * c0 * c1 + (1 - α) * (2 * c1 ^ 2 - 1)) ^ 2
        + (2 * s1 * (c0 - (1 - α) * c1)) ^ 2) / (1 + α) ^ 2 :=
    div_pos hNM (by positivity)
  convert hdiv using 1
  field_simp
  ring

/-- C8 (amended): for every enabled Peak band with gain 0 (so the gain
factor `A = Math.pow(10, 0/40)` is exactly 1 and `sqrt(A) = 1`), q > 0 and
band frequency strictly between 0 and 24000 Hz (half the 48 kHz sample
rate), the coefficient derivation succeeds and the magnitude computed from
that band's coefficients is exactly 0 dB at every evaluation frequency. -/
theorem peak_zero_gain_flat (band : Band) (g : ℝ) (log10 : ℝ → ℝ)
    (htype : band.type = "PK") (hen : band.enabled = true) (hgain : band.gain = 0)
    (hq : 0 < band.q) (hf0 : 0 < band.freq) (hf : band.freq < 24000)
    (hlog : log10 1 = 0) :
    ∃ c : Coeffs ℝ,
      calculateBiquad band 1 1 (Real.sin (2 * Real.pi * (band.freq : ℝ) / 48000))
          (Real.cos (2 * Real.pi * (band.freq : ℝ) / 48000)) = some c
      ∧ getMagnitude log10 [c]
          (Real.cos (2 * Real.pi * g / 48000)) (Real.cos (2 * (2 * Real.pi * g / 48000)))
          (Real.sin (2 * Real.pi * g / 48000)) (Real.sin (2 * (2 * Real.pi * g / 48000)))
          = some 0 := by
  have hfR : (0 : ℝ) < (band.freq : ℝ) := by exact_mod_cast hf0
  have hfR24 : (band.freq : ℝ) < 24000 := by exact_mod_cast hf
  have hπ := Real.pi_pos
  have hw0pos : 0 < 2 * Real.pi * (band.freq : ℝ) / 48000 := by positivity
  have hw0lt : 2 * Real.pi * (band.freq : ℝ) / 48000 < Real.pi := by
    rw [div_lt_iff₀ (by norm_num : (0 : ℝ) < 48000)]
    nlinarith
  have hs0 : 0 < Real.sin (2 * Real.pi * (band.freq : ℝ) / 48000) :=
    Real.sin_pos_of_pos_of_lt_pi hw0pos hw0lt
  have hc0sq : (Real.cos (2 * Real.pi * (band.freq : ℝ) / 48000)) ^ 2 < 1 := by
    have h1 := Real.sin_sq_add_cos_sq (2 * Real.pi * (band.freq : ℝ) / 48000)
    nlinarith [hs0]
  have hqR : (0 : ℝ) < (band.q : ℝ) := by exact_mod_cast hq
  have hα : 0 < Real.sin (2 * Real.pi * (band.freq : ℝ) / 48000) / (2 * (band.q : ℝ)) := by
    positivity
  refine ⟨_, peak_unity_gain_coeffs band _ _ htype hen hq hs0, ?_⟩
  have hpy := Real.sin_sq_add_cos_sq (2 * Real.pi * g / 48000)
  have hterm := peak_unity_dbTerm
    (Real.sin (2 * Real.pi * (band.freq : ℝ) / 48000) / (2 * (band.q : ℝ)))
    (Real.cos (2 * Real.pi * (band.freq : ℝ) / 48000))
    (Real.cos (2 * Real.pi * g / 48000)) (Real.sin (2 * Real.pi * g / 48000))
    log10 hα hc0sq hpy hlog
  rw [Real.cos_two_mul, Real.sin_two_mul]
  simp only [neg_mul] at hterm
  simp [getMagnitude, hterm]

/-- C8 witness: a concrete enabled Peak band (1000 ... 12000 Hz, q = 1,
gain 0) evaluated at 500 Hz. -/
theorem peak_zero_gain_flat_witness :
    ∃ c : Coeffs ℝ,
      calculateBiquad (⟨0, 12000, 0, 1, "PK", true⟩ : Band) 1 1
          (Real.sin (2 * Real.pi * ((12000 : ℚ) : ℝ) / 48000))
          (Real.cos (2 * Real.pi * ((12000 : ℚ) : ℝ) / 48000)) = some c
      ∧ getMagnitude (fun _ => (0 : ℝ)) [c]
          (Real.cos (2 * Real.pi * 500 / 48000)) (Real.cos (2 * (2 * Real.pi * 500 / 48000)))
          (Real.sin (2 * Real.pi * 500 / 48000)) (Real.sin (2 * (2 * Real.pi * 500 / 48000)))
          = some 0 :=
  peak_zero_gain_flat ⟨0, 12000, 0, 1, "PK", true⟩ 500 (fun _ => 0) rfl rfl rfl
    (by norm_num) (by norm_num) (by norm_num) rfl

/-- C8 counterexample: the claim as stated quantifies over every q > 0 and
freq > 0.  At band frequency 36000 Hz (w0 = 3*pi/2, sin(w0) = -1) and
q = 1/2, the unnormalized `a0 = 1 + alpha/A` is exactly 0, so the
normalization divides by zero and every returned coefficient is non-finite
(none): no finite coefficients exist, hence no 0 dB magnitude. -/
theorem peak_nyquist_counterexample :
    calculateBiquad (K := ℝ) ⟨0, 36000, 0, 1/2, "PK", true⟩ 1 1
        (Real.sin (2 * Real.pi * 36000 / 48000)) (Real.cos (2 * Real.pi * 36000 / 48000))
      = none := by
  have harg : 2 * Real.pi * 36000 / 48000 = Real.pi + Real.pi / 2 := by ring
  have hsin : Real.sin (2 * Real.pi * 36000 / 48000) = -1 := by
    rw [harg, Real.sin_add, Real.sin_pi, Real.cos_pi, Real.sin_pi_div_two,
      Real.cos_pi_div_two]
    ring
  rw [hsin]
  have hq : (((1 : ℚ) / 2 : ℚ) : ℝ) = 1 / 2 := by norm_num
  simp only [calculateBiquad, rawBiquad, divJs]
  norm_num [hq]
